import Mathlib

/-!
Shallow embedding of `maplab-server-node.cc` (class `MaplabServerNode`):
the submap processing queue and its per-task state record, the worker job
that loads and processes a submap, the merge loop that drains the queue
head-first, the status reporter's per-task presentation label, the map-key
derivation, the merge loop's interaction with the map store, and the
`mapLookup` query path.

External collaborators (map store content, console command engine, pose
interpolator, `std::hash`) are modelled as parameters; the logic embedded
here is the control flow of the source file.
-/

namespace MaplabServer

/-! ### Rigid-body transformations

`aslam::Transformation` acts on 3-vectors and composes with `*`; it is
modelled as an affine map over exact rationals (matrix plus translation),
with `comp` mirroring `T1 * T2` and `apply` mirroring `T * p`. -/

structure Vec3 where
  x : ℚ
  y : ℚ
  z : ℚ
deriving DecidableEq

def Vec3.zero : Vec3 := ⟨0, 0, 0⟩

def Vec3.add (a b : Vec3) : Vec3 := ⟨a.x + b.x, a.y + b.y, a.z + b.z⟩

structure Mat3 where
  m11 : ℚ
  m12 : ℚ
  m13 : ℚ
  m21 : ℚ
  m22 : ℚ
  m23 : ℚ
  m31 : ℚ
  m32 : ℚ
  m33 : ℚ
deriving DecidableEq

def Mat3.mulVec (m : Mat3) (v : Vec3) : Vec3 :=
  ⟨m.m11 * v.x + m.m12 * v.y + m.m13 * v.z,
   m.m21 * v.x + m.m22 * v.y + m.m23 * v.z,
   m.m31 * v.x + m.m32 * v.y + m.m33 * v.z⟩

def Mat3.mul (a b : Mat3) : Mat3 :=
  ⟨a.m11 * b.m11 + a.m12 * b.m21 + a.m13 * b.m31,
   a.m11 * b.m12 + a.m12 * b.m22 + a.m13 * b.m32,
   a.m11 * b.m13 + a.m12 * b.m23 + a.m13 * b.m33,
   a.m21 * b.m11 + a.m22 * b.m21 + a.m23 * b.m31,
   a.m21 * b.m12 + a.m22 * b.m22 + a.m23 * b.m32,
   a.m21 * b.m13 + a.m22 * b.m23 + a.m23 * b.m33,
   a.m31 * b.m11 + a.m32 * b.m21 + a.m33 * b.m31,
   a.m31 * b.m12 + a.m32 * b.m22 + a.m33 * b.m32,
   a.m31 * b.m13 + a.m32 * b.m23 + a.m33 * b.m33⟩

structure Transformation where
  rot : Mat3
  trans : Vec3
deriving DecidableEq

/-- `T * p`: apply the transformation to a point. -/
def Transformation.apply (T : Transformation) (p : Vec3) : Vec3 :=
  (T.rot.mulVec p).add T.trans

/-- `a * b`: composition of transformations, `(a.comp b).apply p = a.apply (b.apply p)`. -/
def Transformation.comp (a b : Transformation) : Transformation :=
  ⟨a.rot.mul b.rot, (a.rot.mulVec b.trans).add a.trans⟩

/-! ### Submap tasks and the processing queue

`SubmapProcess` (fields as used in `maplab-server-node.cc`): identity
fields, the three monotonic flags, and `lockHeld`, which models whether
the per-task `std::mutex` is currently held by the worker job.  `map_key`
is derived in `loadAndProcessSubmap` as
`robot_name + "_" + std::to_string(std::hash<std::string>{}(path))`;
`std::hash` is modelled as a parameter `h : String → ℕ`. -/

structure SubmapProcess where
  robot_name : String
  path : String
  map_key : String
  map_hash : ℕ
  is_loaded : Bool
  is_processed : Bool
  is_merged : Bool
  lockHeld : Bool
deriving DecidableEq

/-- Key derivation from `loadAndProcessSubmap`:
`robot_name + "_" + std::to_string(hash(path))`. -/
def serverMapKey (h : String → ℕ) (robot path : String) : String :=
  robot ++ "_" ++ Nat.repr (h path)

/-- The task record as created at the queue tail by `loadAndProcessSubmap`. -/
def mkSubmapProcess (h : String → ℕ) (robot path : String) : SubmapProcess :=
  { robot_name := robot
    path := path
    map_key := serverMapKey h robot path
    map_hash := h path
    is_loaded := false
    is_processed := false
    is_merged := false
    lockHeld := false }

def SubmapProcess.lock (t : SubmapProcess) : SubmapProcess := {t with lockHeld := true}

def SubmapProcess.unlock (t : SubmapProcess) : SubmapProcess := {t with lockHeld := false}

def SubmapProcess.markLoaded (t : SubmapProcess) : SubmapProcess := {t with is_loaded := true}

def SubmapProcess.markProcessed (t : SubmapProcess) : SubmapProcess :=
  {t with is_processed := true}

def SubmapProcess.markMerged (t : SubmapProcess) : SubmapProcess := {t with is_merged := true}

/-- A task the merge loop can merge: lock acquirable, loaded and processed. -/
def taskReady (t : SubmapProcess) : Bool :=
  !t.lockHeld && t.is_loaded && t.is_processed

/-! ### The merge loop's queue drain (lines 100-205)

One execution of the inner
`while (!submap_processing_queue_.empty() && !shut_down_requested_.load())`
loop: examine the head; if the shutdown flag reads true, stop; if
`try_lock` fails (a worker holds the lock), stop; if the head is not yet
loaded, or not yet processed, unlock and stop; otherwise merge it (set
`is_merged`), pop it from the head and continue.  `shut` gives the value
the k-th read of the atomic shutdown flag observes.  Returns the merged
tasks in merge order and the remaining queue. -/
def drainQueue (shut : ℕ → Bool) : ℕ → List SubmapProcess →
    List SubmapProcess × List SubmapProcess
  | _, [] => ([], [])
  | i, t :: rest =>
    if shut i then ([], t :: rest)
    else if t.lockHeld then ([], t :: rest)
    else if !t.is_loaded then ([], t :: rest)
    else if !t.is_processed then ([], t :: rest)
    else
      let result := drainQueue shut (i + 1) rest
      (t.markMerged :: result.1, result.2)

/-! ### The status reporter's per-task label (lines 278-322)

`locked` is `was_locked_by_other_process`: true when the status thread's
`try_lock` failed because the worker holds the task's mutex. -/

inductive SubmapStatusLabel where
  | merged
  | inconsistent
  | merging
  | readyToMerge
  | processing
  | queuedForProcessing
  | loading
  | queuedForLoading
deriving DecidableEq

/-- The if-chain of the status thread, in source order; `inconsistent` is the
branch that logs "A submap process cannot be merged and unlocked at the same
time! Something is wrong!". -/
def statusLabel (is_merged is_processed is_loaded locked : Bool) : SubmapStatusLabel :=
  if is_merged && locked then SubmapStatusLabel.merged
  else if is_merged && !locked then SubmapStatusLabel.inconsistent
  else if is_processed && locked then SubmapStatusLabel.merging
  else if is_processed && !locked then SubmapStatusLabel.readyToMerge
  else if is_loaded && locked then SubmapStatusLabel.processing
  else if is_loaded && !locked then SubmapStatusLabel.queuedForProcessing
  else if !is_loaded && locked then SubmapStatusLabel.loading
  else SubmapStatusLabel.queuedForLoading

/-! ### Ingestion entry of `loadAndProcessSubmap` (lines 407-433)

`CHECK(!submap_path.empty())` and `CHECK(!robot_name.empty())` are fatal
process aborts, modelled as `none`.  After the checks: if a shutdown was
already requested, return `false` without touching the queue; otherwise
create the task at the queue tail and return `true`. -/
def loadAndProcessSubmapEntry (h : String → ℕ) (shutdown : Bool)
    (q : List SubmapProcess) (robot path : String) :
    Option (Bool × List SubmapProcess) :=
  if path = "" then none
  else if robot = "" then none
  else if shutdown then some (false, q)
  else some (true, q ++ [mkSubmapProcess h robot path])

/-! ### The worker job's command loop (lines 483-516)

Each configured submap command is run; after each command the atomic
shutdown flag is read (the k-th read observes `shut k`): if it reads true
the job returns early and `is_processed` is never set; only when the loop
runs to completion is `is_processed` set to true.  Returns the commands
that were run and the final value of `is_processed`. -/
def runSubmapCommands (shut : ℕ → Bool) : ℕ → List String → List String × Bool
  | _, [] => ([], true)
  | i, c :: rest =>
    if shut i then ([c], false)
    else
      let result := runSubmapCommands shut (i + 1) rest
      (c :: result.1, result.2)

/-! ### The map store as seen by the merge loop and the worker load step

The `vi_map::VIMapManager` is external; its observable content is modelled
as an association list from map key to map data.  `MapData` keeps the
fields the merge loop touches: the mission identifier and the baseframe's
`is_T_G_M_known` flag, plus an opaque payload. -/

structure MapData where
  missionId : ℕ
  is_T_G_M_known : Bool
  payload : ℕ
deriving DecidableEq

abbrev MapStore := List (String × MapData)

def storeGet : MapStore → String → Option MapData
  | [], _ => none
  | (k, v) :: rest, key => if k = key then some v else storeGet rest key

def hasMap (s : MapStore) (key : String) : Bool := (storeGet s key).isSome

def storeInsert (s : MapStore) (key : String) (v : MapData) : MapStore := (key, v) :: s

def storeRemove : MapStore → String → MapStore
  | [], _ => []
  | (k, v) :: rest, key =>
    if k = key then storeRemove rest key else (k, v) :: storeRemove rest key

def storeUpdate : MapStore → String → (MapData → MapData) → MapStore
  | [], _, _ => []
  | (k, v) :: rest, key, f =>
    if k = key then (k, f v) :: storeUpdate rest key f
    else (k, v) :: storeUpdate rest key f

/-- `map_manager_.renameMap(oldKey, newKey)`. -/
def renameMap (s : MapStore) (oldKey newKey : String) : MapStore :=
  match storeGet s oldKey with
  | some v => storeInsert (storeRemove s oldKey) newKey v
  | none => s

/-- Modelled from the spec: the well-known key of the single merged global
map (`kMergedMapKey` is declared in `maplab-server-node.h`, which is not
under `src/`; only its value is missing — every use below treats it as an
opaque distinguished key). -/
def kMergedMapKey : String := "merged_map"

/-- Bootstrap action on the first mission (lines 154-164): mark the
baseframe's `is_T_G_M_known` as true. -/
def setBaseframeKnown (d : MapData) : MapData := {d with is_T_G_M_known := true}

/-- The worker job's load step (lines 458-468): `LOG(FATAL)` (modelled as
`none`) if a map with the derived key is already in the store, otherwise
load the submap from its path into the store under the key.  `loadFn`
models the external `loadMapFromFolder` content. -/
def workerLoadStep (loadFn : String → MapData) (store : MapStore)
    (t : SubmapProcess) : Option MapStore :=
  if hasMap store t.map_key then none
  else some (storeInsert store t.map_key (loadFn t.path))

/-- The merge loop's store interaction for one ready task (lines 148-183):
if no merged map exists yet, rename the submap to `kMergedMapKey` and set
its baseframe to known (bootstrap); otherwise merge the submap into the
merged map (external `mergeSubmapIntoBaseMap`, modelled by `mergeFn`) and
delete the submap entry. -/
def mergeSubmapIntoStore (mergeFn : MapData → MapData → MapData)
    (store : MapStore) (key : String) : MapStore :=
  if hasMap store kMergedMapKey then
    match storeGet store kMergedMapKey, storeGet store key with
    | some base, some sub =>
      storeRemove (storeUpdate store kMergedMapKey (fun _ => mergeFn base sub)) key
    | _, _ => store
  else
    storeUpdate (renameMap store key kMergedMapKey) kMergedMapKey setBaseframeKnown

/-! ### The `mapLookup` query path (lines 566-684) -/

inductive SensorType where
  | kNCamera
  | kImu
  | kLidar
  | kOdometry6DoF
  | kOther
deriving DecidableEq

inductive MapLookupStatus where
  | kSuccess
  | kNoSuchMission
  | kNoSuchSensor
  | kPoseNeverAvailable
  | kPoseNotAvailableYet
deriving DecidableEq

/-- The sensors of a mission, as interrogated by `mapLookup`. -/
structure Mission where
  hasNCamera : Bool
  ncameraId : ℕ
  hasImu : Bool
  imuId : ℕ
  hasLidar : Bool
  lidarId : ℕ
  hasOdometry6DoFSensor : Bool
  odometry6DoFId : ℕ

/-- Read-only view of the shared state `mapLookup` consults: the
robot-to-mission index and, through the merged map's read access, the
missions, sensor extrinsics, baseframes and the pose interpolator. -/
structure World where
  robotToMissionIdMap : List (String × ℕ)
  getMission : ℕ → Mission
  getSensor_T_B_S : ℕ → Transformation
  get_T_G_M : ℕ → Transformation
  minTimestampNs : ℕ → Int
  maxTimestampNs : ℕ → Int
  getPoseAtTime : ℕ → Int → Transformation

/-- `robot_to_mission_id_map_` lookup (`count` then `at`). -/
def findMission : List (String × ℕ) → String → Option ℕ
  | [], _ => none
  | (r, m) :: rest, robot => if r = robot then some m else findMission rest robot

/-- The sensor-resolution if-chain of `mapLookup` (lines 605-638): returns
the sensor id, or `none` for the `kNoSuchSensor` cases (missing sensor of
the requested kind, or an invalid sensor kind). -/
def resolveSensor (m : Mission) (st : SensorType) : Option ℕ :=
  match st with
  | SensorType.kNCamera => if m.hasNCamera then some m.ncameraId else none
  | SensorType.kImu => if m.hasImu then some m.imuId else none
  | SensorType.kLidar => if m.hasLidar then some m.lidarId else none
  | SensorType.kOdometry6DoF =>
    if m.hasOdometry6DoFSensor then some m.odometry6DoFId else none
  | SensorType.kOther => none

/-- `MaplabServerNode::mapLookup`, in source order: empty robot name, then
index lookup, then the negative-timestamp check, then sensor resolution,
then the two-sided time-range rejection, then pose composition
`T_G_S = (T_G_M * T_M_B) * T_B_S`, `p_G = T_G_S * p_S`,
`sensor_p_G = T_G_S * 0`. -/
def mapLookup (w : World) (robot : String) (st : SensorType) (ts : Int)
    (p_S : Vec3) : MapLookupStatus × Option (Vec3 × Vec3) :=
  if robot = "" then (MapLookupStatus.kNoSuchMission, none)
  else
    match findMission w.robotToMissionIdMap robot with
    | none => (MapLookupStatus.kNoSuchMission, none)
    | some mid =>
      if ts < 0 then (MapLookupStatus.kPoseNeverAvailable, none)
      else
        match resolveSensor (w.getMission mid) st with
        | none => (MapLookupStatus.kNoSuchSensor, none)
        | some sid =>
          if ts < w.minTimestampNs mid then (MapLookupStatus.kPoseNeverAvailable, none)
          else if w.maxTimestampNs mid < ts then
            (MapLookupStatus.kPoseNotAvailableYet, none)
          else
            let T_G_S :=
              ((w.get_T_G_M mid).comp (w.getPoseAtTime mid ts)).comp
                (w.getSensor_T_B_S sid)
            (MapLookupStatus.kSuccess,
             some (T_G_S.apply p_S, T_G_S.apply Vec3.zero))

/-! ### Global trace model of the pipeline

`ServerState` collects the processing queue, the tasks merged so far (in
merge order) and the keys in arrival (enqueue) order.  `Step` is one
observable transition: enqueue by `loadAndProcessSubmap`, the worker job's
lock acquisition, load, processed-mark and release (each under the guards
the source establishes), and the merge loop merging the ready queue head
(`is_merged` is set and the head popped within one critical section of
`submap_processing_queue_mutex_`, hence one atomic step). -/

structure ServerState where
  queue : List SubmapProcess
  mergedTasks : List SubmapProcess
  arrivals : List String
deriving DecidableEq

def ServerState.init : ServerState := ⟨[], [], []⟩

inductive Step (h : String → ℕ) : ServerState → ServerState → Prop
  | enqueue (s : ServerState) (robot path : String)
      (hr : robot ≠ "") (hp : path ≠ "") :
      Step h s ⟨s.queue ++ [mkSubmapProcess h robot path], s.mergedTasks,
        s.arrivals ++ [serverMapKey h robot path]⟩
  | workerAcquire (s : ServerState) (i : ℕ) (hi : i < s.queue.length)
      (hl : (s.queue.get ⟨i, hi⟩).lockHeld = false)
      (hld : (s.queue.get ⟨i, hi⟩).is_loaded = false) :
      Step h s ⟨s.queue.set i (s.queue.get ⟨i, hi⟩).lock, s.mergedTasks, s.arrivals⟩
  | workerLoad (s : ServerState) (i : ℕ) (hi : i < s.queue.length)
      (hl : (s.queue.get ⟨i, hi⟩).lockHeld = true)
      (hld : (s.queue.get ⟨i, hi⟩).is_loaded = false) :
      Step h s ⟨s.queue.set i (s.queue.get ⟨i, hi⟩).markLoaded, s.mergedTasks, s.arrivals⟩
  | workerProcess (s : ServerState) (i : ℕ) (hi : i < s.queue.length)
      (hl : (s.queue.get ⟨i, hi⟩).lockHeld = true)
      (hld : (s.queue.get ⟨i, hi⟩).is_loaded = true)
      (hpr : (s.queue.get ⟨i, hi⟩).is_processed = false) :
      Step h s ⟨s.queue.set i (s.queue.get ⟨i, hi⟩).markProcessed, s.mergedTasks,
        s.arrivals⟩
  | workerRelease (s : ServerState) (i : ℕ) (hi : i < s.queue.length)
      (hl : (s.queue.get ⟨i, hi⟩).lockHeld = true)
      (hld : (s.queue.get ⟨i, hi⟩).is_loaded = true) :
      Step h s ⟨s.queue.set i (s.queue.get ⟨i, hi⟩).unlock, s.mergedTasks, s.arrivals⟩
  | mergeHead (s : ServerState) (t : SubmapProcess) (rest : List SubmapProcess)
      (hq : s.queue = t :: rest) (hl : t.lockHeld = false)
      (h1 : t.is_loaded = true) (h2 : t.is_processed = true) :
      Step h s ⟨rest, s.mergedTasks ++ [t.markMerged], s.arrivals⟩

inductive Reachable (h : String → ℕ) : ServerState → Prop
  | init : Reachable h ServerState.init
  | step {s s' : ServerState} : Reachable h s → Step h s s' → Reachable h s'

/-- The state invariant maintained by every `Step`. -/
def queueInvariant (s : ServerState) : Prop :=
  (∀ t ∈ s.queue,
    (t.is_processed = true → t.is_loaded = true) ∧ t.is_merged = false) ∧
  (∀ t ∈ s.mergedTasks,
    t.is_merged = true ∧ t.is_processed = true ∧ t.is_loaded = true) ∧
  s.arrivals = s.mergedTasks.map SubmapProcess.map_key ++
    s.queue.map SubmapProcess.map_key

/-! ### Concrete data for the witnesses -/

def h0 : String → ℕ := fun _ => 0

def shutNever : ℕ → Bool := fun _ => false

def shutAtOne : ℕ → Bool := fun i => decide (i = 1)

def sampleTask : SubmapProcess := mkSubmapProcess h0 "robotA" "pathA"

def sampleReadyTask : SubmapProcess :=
  {mkSubmapProcess h0 "robotB" "pathB" with is_loaded := true, is_processed := true}

def sampleLockedTask : SubmapProcess :=
  {mkSubmapProcess h0 "robotC" "pathC" with lockHeld := true}

def sampleMission : Mission := ⟨true, 1, true, 2, true, 3, true, 4⟩

def sensorFreeMission : Mission := ⟨false, 1, false, 2, false, 3, false, 4⟩

def sampleT1 : Transformation := ⟨⟨1, 0, 0, 0, 1, 0, 0, 0, 1⟩, ⟨1, 2, 3⟩⟩

def sampleT2 : Transformation := ⟨⟨0, 1, 0, 1, 0, 0, 0, 0, 1⟩, ⟨4, 5, 6⟩⟩

def sampleT3 : Transformation := ⟨⟨2, 0, 0, 0, 3, 0, 0, 0, 4⟩, ⟨7, 8, 9⟩⟩

def sampleWorld : World :=
  { robotToMissionIdMap := [("robotA", 7)]
    getMission := fun _ => sampleMission
    getSensor_T_B_S := fun _ => sampleT1
    get_T_G_M := fun _ => sampleT2
    minTimestampNs := fun _ => 10
    maxTimestampNs := fun _ => 20
    getPoseAtTime := fun _ _ => sampleT3 }

def sensorFreeWorld : World :=
  { sampleWorld with getMission := fun _ => sensorFreeMission }

def sampleData : MapData := ⟨7, false, 42⟩

def sampleBase : MapData := ⟨1, true, 5⟩

def sampleLoadFn : String → MapData := fun _ => sampleData

def sampleMergeFn : MapData → MapData → MapData :=
  fun base sub => ⟨base.missionId, base.is_T_G_M_known, base.payload + sub.payload⟩

def stateOne : ServerState := ⟨[sampleTask], [], [sampleTask.map_key]⟩

/-! ## Helper lemmas -/

theorem list_set_get_self {α : Type} (l : List α) (i : ℕ) (h : i < l.length) :
    l.set i l[i] = l := by
  apply List.ext_getElem <;> simp [List.getElem_set]
  intro n h1 h2 hin
  subst hin
  rfl

theorem list_map_set_of_eq {α β : Type} (f : α → β) (l : List α) (i : ℕ)
    (hi : i < l.length) (b : α) (hb : f b = f l[i]) :
    (l.set i b).map f = l.map f := by
  rw [List.map_set, hb]
  have := list_set_get_self (l.map f) i (by simpa using hi)
  simpa using this

theorem Transformation.comp_apply (a b : Transformation) (p : Vec3) :
    (a.comp b).apply p = a.apply (b.apply p) := by
  simp only [Transformation.comp, Transformation.apply, Mat3.mul, Mat3.mulVec,
    Vec3.add, Vec3.mk.injEq]
  refine ⟨by ring, by ring, by ring⟩

/-! ## Claims about `mapLookup` -/

/-- Claim C3: for a lookup with a registered robot name whose mission has the
requested sensor, a timestamp that is negative or precedes the mission's
minimum recorded time yields `kPoseNeverAvailable`; a timestamp past the
mission's maximum recorded time yields `kPoseNotAvailableYet`; otherwise the
lookup succeeds; and the two out-of-range statuses are distinct. -/
theorem mapLookup_range_rejection (w : World) (robot : String) (st : SensorType)
    (ts : Int) (p : Vec3) (mid : ℕ)
    (hr : robot ≠ "")
    (hm : findMission w.robotToMissionIdMap robot = some mid)
    (hs : (resolveSensor (w.getMission mid) st).isSome = true) :
    ((ts < 0 ∨ ts < w.minTimestampNs mid) →
      (mapLookup w robot st ts p).1 = MapLookupStatus.kPoseNeverAvailable) ∧
    (0 ≤ ts → w.minTimestampNs mid ≤ ts → w.maxTimestampNs mid < ts →
      (mapLookup w robot st ts p).1 = MapLookupStatus.kPoseNotAvailableYet) ∧
    (0 ≤ ts → w.minTimestampNs mid ≤ ts → ts ≤ w.maxTimestampNs mid →
      (mapLookup w robot st ts p).1 = MapLookupStatus.kSuccess) ∧
    MapLookupStatus.kPoseNeverAvailable ≠ MapLookupStatus.kPoseNotAvailableYet := by
  obtain ⟨sid, hsid⟩ := Option.isSome_iff_exists.mp hs
  refine ⟨?_, ?_, ?_, by decide⟩
  · intro hcase
    by_cases hneg : ts < 0
    · simp [mapLookup, hr, hm, hneg]
    · have hmin : ts < w.minTimestampNs mid := by
        rcases hcase with hc | hc
        · exact absurd hc hneg
        · exact hc
      simp [mapLookup, hr, hm, hneg, hsid, hmin]
  · intro h1 h2 h3
    have hneg : ¬ ts < 0 := not_lt.mpr h1
    have hmin : ¬ ts < w.minTimestampNs mid := not_lt.mpr h2
    simp [mapLookup, hr, hm, hneg, hsid, hmin, h3]
  · intro h1 h2 h3
    have hneg : ¬ ts < 0 := not_lt.mpr h1
    have hmin : ¬ ts < w.minTimestampNs mid := not_lt.mpr h2
    have hmax : ¬ w.maxTimestampNs mid < ts := not_lt.mpr h3
    simp [mapLookup, hr, hm, hneg, hsid, hmin, hmax]

/-- Witness for C3 on a concrete world with recorded range `[10, 20]`. -/
theorem mapLookup_range_rejection_witness :
    (mapLookup sampleWorld "robotA" SensorType.kNCamera 5 Vec3.zero).1 =
      MapLookupStatus.kPoseNeverAvailable ∧
    (mapLookup sampleWorld "robotA" SensorType.kNCamera 25 Vec3.zero).1 =
      MapLookupStatus.kPoseNotAvailableYet ∧
    (mapLookup sampleWorld "robotA" SensorType.kNCamera 15 Vec3.zero).1 =
      MapLookupStatus.kSuccess := by
  refine ⟨?_, ?_, ?_⟩
  · exact (mapLookup_range_rejection sampleWorld "robotA" SensorType.kNCamera 5
      Vec3.zero 7 (by decide) (by decide) (by decide)).1 (Or.inr (by decide))
  · exact (mapLookup_range_rejection sampleWorld "robotA" SensorType.kNCamera 25
      Vec3.zero 7 (by decide) (by decide) (by decide)).2.1
      (by decide) (by decide) (by decide)
  · exact (mapLookup_range_rejection sampleWorld "robotA" SensorType.kNCamera 15
      Vec3.zero 7 (by decide) (by decide) (by decide)).2.2.1
      (by decide) (by decide) (by decide)

/-- Claim C4: a successful lookup returns the global point obtained by
applying, in this order, the global-frame alignment `T_G_M`, the
interpolated body pose `T_M_B`, and the sensor extrinsic `T_B_S` to the
input point, and the sensor origin obtained by applying the same composed
pose to the zero vector. -/
theorem mapLookup_composition_order (w : World) (robot : String)
    (st : SensorType) (ts : Int) (p : Vec3) (mid sid : ℕ)
    (hr : robot ≠ "")
    (hm : findMission w.robotToMissionIdMap robot = some mid)
    (hs : resolveSensor (w.getMission mid) st = some sid)
    (h1 : 0 ≤ ts) (h2 : w.minTimestampNs mid ≤ ts)
    (h3 : ts ≤ w.maxTimestampNs mid) :
    mapLookup w robot st ts p =
      (MapLookupStatus.kSuccess,
       some ((w.get_T_G_M mid).apply ((w.getPoseAtTime mid ts).apply
               ((w.getSensor_T_B_S sid).apply p)),
             (w.get_T_G_M mid).apply ((w.getPoseAtTime mid ts).apply
               ((w.getSensor_T_B_S sid).apply Vec3.zero)))) := by
  have hneg : ¬ ts < 0 := not_lt.mpr h1
  have hmin : ¬ ts < w.minTimestampNs mid := not_lt.mpr h2
  have hmax : ¬ w.maxTimestampNs mid < ts := not_lt.mpr h3
  simp [mapLookup, hr, hm, hneg, hs, hmin, hmax, Transformation.comp_apply]

/-- Witness for C4 on a concrete world and point. -/
theorem mapLookup_composition_order_witness :
    mapLookup sampleWorld "robotA" SensorType.kImu 15 (Vec3.mk 1 1 1) =
      (MapLookupStatus.kSuccess,
       some (sampleT2.apply (sampleT3.apply (sampleT1.apply (Vec3.mk 1 1 1))),
             sampleT2.apply (sampleT3.apply (sampleT1.apply Vec3.zero)))) :=
  mapLookup_composition_order sampleWorld "robotA" SensorType.kImu 15
    (Vec3.mk 1 1 1) 7 2 (by decide) (by decide) (by decide)
    (by decide) (by decide) (by decide)

/-- Claim C10: in `mapLookup` the negative-timestamp check precedes sensor
resolution: with a registered robot name and a negative timestamp the result
is `kPoseNeverAvailable` for every sensor kind, including when the mission
lacks the requested sensor. -/
theorem negative_timestamp_checked_before_sensor (w : World) (robot : String)
    (st : SensorType) (ts : Int) (p : Vec3) (mid : ℕ)
    (hr : robot ≠ "")
    (hm : findMission w.robotToMissionIdMap robot = some mid)
    (hts : ts < 0) :
    (mapLookup w robot st ts p).1 = MapLookupStatus.kPoseNeverAvailable := by
  simp [mapLookup, hr, hm, hts]

/-- Witness for C10: the mission has no sensor at all, yet a negative
timestamp is reported as never-available rather than no-such-sensor. -/
theorem negative_timestamp_checked_before_sensor_witness :
    (mapLookup sensorFreeWorld "robotA" SensorType.kNCamera (-5) Vec3.zero).1 =
      MapLookupStatus.kPoseNeverAvailable :=
  negative_timestamp_checked_before_sensor sensorFreeWorld "robotA"
    SensorType.kNCamera (-5) Vec3.zero 7 (by decide) (by decide) (by decide)

/-! ## Claims about the status reporter -/

/-- Claim C5 counterexample: the status thread prints the ordinary `merged`
label for a task that is merged while its lock is held, and reports the
internal-inconsistency error for a task that is merged while its lock is
NOT held — the opposite of the claim, which places the error at
merged-and-lock-held. -/
theorem status_inconsistent_claim_counterexample :
    statusLabel true true true true = SubmapStatusLabel.merged ∧
    statusLabel true true true true ≠ SubmapStatusLabel.inconsistent ∧
    statusLabel true true true false = SubmapStatusLabel.inconsistent := by
  decide

/-! ## Claims about the ingestion entry -/

/-- Claim C6 counterexample: submitting with an empty robot name does not
return the typed failure `false` with the queue untouched — it trips
`CHECK(!robot_name.empty())`, a fatal process abort (modelled as `none`). -/
theorem submit_empty_returns_false_counterexample :
    loadAndProcessSubmapEntry h0 false [] "" "p" = none ∧
    loadAndProcessSubmapEntry h0 false [] "" "p" ≠ some (false, []) ∧
    loadAndProcessSubmapEntry h0 false [] "robotA" "" = none := by
  decide

/-- Claim C6 (amended): submitting with an empty source path or an empty
robot name aborts the process via `CHECK` (no task is created, but the
failure is fatal rather than a typed `false`); the typed rejected request
is the shutdown-in-progress case, which returns `false` and leaves the
queue unchanged; otherwise a task is created at the queue tail and `true`
is returned. -/
theorem submit_empty_aborts_and_shutdown_rejects (h : String → ℕ)
    (shutdown : Bool) (q : List SubmapProcess) (robot path : String) :
    ((path = "" ∨ robot = "") →
      loadAndProcessSubmapEntry h shutdown q robot path = none) ∧
    (path ≠ "" → robot ≠ "" → shutdown = true →
      loadAndProcessSubmapEntry h shutdown q robot path = some (false, q)) ∧
    (path ≠ "" → robot ≠ "" → shutdown = false →
      loadAndProcessSubmapEntry h shutdown q robot path =
        some (true, q ++ [mkSubmapProcess h robot path])) := by
  refine ⟨?_, ?_, ?_⟩
  · intro hcase
    rcases hcase with hc | hc
    · simp [loadAndProcessSubmapEntry, hc]
    · by_cases hp : path = "" <;> simp [loadAndProcessSubmapEntry, hp, hc]
  · intro hp hrr hsd
    simp [loadAndProcessSubmapEntry, hp, hrr, hsd]
  · intro hp hrr hsd
    simp [loadAndProcessSubmapEntry, hp, hrr, hsd]

/-- Witness for the amended C6: the three outcomes at concrete inputs. -/
theorem submit_empty_aborts_and_shutdown_rejects_witness :
    loadAndProcessSubmapEntry h0 false [] "" "p" = none ∧
    loadAndProcessSubmapEntry h0 true [] "robotA" "p" = some (false, []) ∧
    loadAndProcessSubmapEntry h0 false [] "robotA" "p" =
      some (true, [] ++ [mkSubmapProcess h0 "robotA" "p"]) :=
  ⟨(submit_empty_aborts_and_shutdown_rejects h0 false [] "" "p").1
      (Or.inr (by decide)),
   (submit_empty_aborts_and_shutdown_rejects h0 true [] "robotA" "p").2.1
      (by decide) (by decide) (by decide),
   (submit_empty_aborts_and_shutdown_rejects h0 false [] "robotA" "p").2.2
      (by decide) (by decide) (by decide)⟩

/-! ## Map-store lemmas -/

theorem storeGet_insert_self (s : MapStore) (k : String) (v : MapData) :
    storeGet (storeInsert s k v) k = some v := by
  simp [storeInsert, storeGet]

theorem storeGet_insert_ne (s : MapStore) (k k2 : String) (v : MapData)
    (h : k ≠ k2) : storeGet (storeInsert s k v) k2 = storeGet s k2 := by
  simp [storeInsert, storeGet, h]

theorem storeGet_remove_self (s : MapStore) (k : String) :
    storeGet (storeRemove s k) k = none := by
  induction s with
  | nil => simp [storeRemove, storeGet]
  | cons kv rest ih =>
    by_cases hk : kv.1 = k
    · simpa [storeRemove, hk] using ih
    · simpa [storeRemove, storeGet, hk] using ih

theorem storeGet_remove_ne (s : MapStore) (k k2 : String) (h : k2 ≠ k) :
    storeGet (storeRemove s k) k2 = storeGet s k2 := by
  induction s with
  | nil => simp [storeRemove]
  | cons kv rest ih =>
    by_cases hk : kv.1 = k
    · have hne : kv.1 ≠ k2 := by
        intro hcon
        exact h (hcon ▸ hk)
      simp [storeRemove, storeGet, hk, hne, ih, h, Ne.symm h]
    · by_cases hk2 : kv.1 = k2 <;>
        simp [storeRemove, storeGet, hk, hk2, ih, h, Ne.symm h]

theorem storeGet_update_self (s : MapStore) (k : String) (f : MapData → MapData)
    (v : MapData) (hv : storeGet s k = some v) :
    storeGet (storeUpdate s k f) k = some (f v) := by
  induction s with
  | nil => simp [storeGet] at hv
  | cons kv rest ih =>
    by_cases hk : kv.1 = k
    · simp [storeGet, hk] at hv
      simp [storeUpdate, storeGet, hk, hv]
    · simp [storeGet, hk] at hv
      simp [storeUpdate, storeGet, hk, ih hv]

theorem storeGet_update_ne (s : MapStore) (k k2 : String)
    (f : MapData → MapData) (h : k2 ≠ k) :
    storeGet (storeUpdate s k f) k2 = storeGet s k2 := by
  induction s with
  | nil => simp [storeUpdate]
  | cons kv rest ih =>
    by_cases hk : kv.1 = k
    · have hne : kv.1 ≠ k2 := by
        intro hcon
        exact h (hcon ▸ hk)
      simp [storeUpdate, storeGet, hk, hne, ih, h, Ne.symm h]
    · by_cases hk2 : kv.1 = k2 <;>
        simp [storeUpdate, storeGet, hk, hk2, ih, h, Ne.symm h]

/-! ## Claims about the map key and the merge loop's store interaction -/

/-- Claim C7 counterexample: the derived map key is not a function of the
source path alone (equal paths with different robot names derive different
keys), and it is not unique per distinct source path (the hash of the path
is all that enters, so a hash collision yields an identical key). -/
theorem map_key_function_of_path_counterexample :
    serverMapKey h0 "robotA" "p" ≠ serverMapKey h0 "robotB" "p" ∧
    serverMapKey h0 "robotA" "p" = serverMapKey h0 "robotA" "q" := by
  decide

/-- Claim C7 (amended): the derived map key is
`robotName ++ "_" ++ decimal(hash(sourcePath))`: it is a deterministic
function of the robot name and the hash of the source path (and of nothing
else), so submissions agreeing on both derive equal keys, while distinct
source paths are only distinguished insofar as the hash distinguishes
them; a derived key already present in the map store is a process-fatal
failure (`LOG(FATAL)`) in the worker's load step, and otherwise the submap
is loaded into the store under the derived key. -/
theorem map_key_robot_and_hash (h : String → ℕ) (robot p1 p2 : String)
    (loadFn : String → MapData) (store : MapStore) (t : SubmapProcess)
    (hcol : h p1 = h p2) :
    serverMapKey h robot p1 = serverMapKey h robot p2 ∧
    (hasMap store t.map_key = true → workerLoadStep loadFn store t = none) ∧
    (hasMap store t.map_key = false →
      workerLoadStep loadFn store t =
        some (storeInsert store t.map_key (loadFn t.path))) := by
  refine ⟨by simp [serverMapKey, hcol], ?_, ?_⟩
  · intro hm
    simp [workerLoadStep, hm]
  · intro hm
    simp [workerLoadStep, hm]

/-- Witness for the amended C7 at concrete inputs (a colliding hash, a
store already holding the derived key, and an empty store). -/
theorem map_key_robot_and_hash_witness :
    serverMapKey h0 "robotA" "p" = serverMapKey h0 "robotA" "q" ∧
    workerLoadStep sampleLoadFn [(serverMapKey h0 "robotA" "p", sampleBase)]
      (mkSubmapProcess h0 "robotA" "p") = none ∧
    workerLoadStep sampleLoadFn [] (mkSubmapProcess h0 "robotA" "p") =
      some (storeInsert [] (mkSubmapProcess h0 "robotA" "p").map_key
        (sampleLoadFn (mkSubmapProcess h0 "robotA" "p").path)) :=
  ⟨(map_key_robot_and_hash h0 "robotA" "p" "q" sampleLoadFn []
      (mkSubmapProcess h0 "robotA" "p") rfl).1,
   (map_key_robot_and_hash h0 "robotA" "p" "p" sampleLoadFn
      [(serverMapKey h0 "robotA" "p", sampleBase)]
      (mkSubmapProcess h0 "robotA" "p") rfl).2.1 (by decide),
   (map_key_robot_and_hash h0 "robotA" "p" "p" sampleLoadFn []
      (mkSubmapProcess h0 "robotA" "p") rfl).2.2 (by decide)⟩

/-- Claim C9: loading a submap never creates the merged map; when no merged
map exists, merging the first ready task renames/adopts its map as the
merged map under the well-known key with the baseframe marked known and
removes the submap entry; when the merged map exists, a ready task's map is
merged into it and its submap entry is deleted from the store. -/
theorem merge_bootstrap_and_steady_state (mergeFn : MapData → MapData → MapData)
    (loadFn : String → MapData) (store : MapStore) (key : String)
    (data : MapData) (t : SubmapProcess)
    (hk : key ≠ kMergedMapKey) (hget : storeGet store key = some data) :
    (hasMap store kMergedMapKey = false →
      storeGet (mergeSubmapIntoStore mergeFn store key) kMergedMapKey =
        some (setBaseframeKnown data) ∧
      hasMap (mergeSubmapIntoStore mergeFn store key) key = false) ∧
    (∀ base, storeGet store kMergedMapKey = some base →
      storeGet (mergeSubmapIntoStore mergeFn store key) kMergedMapKey =
        some (mergeFn base data) ∧
      hasMap (mergeSubmapIntoStore mergeFn store key) key = false) ∧
    (t.map_key ≠ kMergedMapKey → hasMap store kMergedMapKey = false →
      hasMap store t.map_key = false →
      workerLoadStep loadFn store t =
        some (storeInsert store t.map_key (loadFn t.path)) ∧
      hasMap (storeInsert store t.map_key (loadFn t.path)) kMergedMapKey =
        false) := by
  refine ⟨?_, ?_, ?_⟩
  · intro hnm
    have hrn : renameMap store key kMergedMapKey =
        storeInsert (storeRemove store key) kMergedMapKey data := by
      simp [renameMap, hget]
    have hx : storeGet (renameMap store key kMergedMapKey) kMergedMapKey =
        some data := by
      rw [hrn]
      exact storeGet_insert_self ..
    constructor
    · simp only [mergeSubmapIntoStore, hnm, Bool.false_eq_true, if_false]
      exact storeGet_update_self _ _ _ _ hx
    · simp only [mergeSubmapIntoStore, hnm, Bool.false_eq_true, if_false]
      simp only [hasMap]
      rw [storeGet_update_ne _ _ _ _ hk, hrn,
        storeGet_insert_ne _ _ _ _ (Ne.symm hk), storeGet_remove_self]
      rfl
  · intro base hbase
    have hcond : hasMap store kMergedMapKey = true := by
      simp [hasMap, hbase]
    constructor
    · simp only [mergeSubmapIntoStore, hcond, if_true, hbase, hget]
      rw [storeGet_remove_ne _ _ _ (Ne.symm hk)]
      exact storeGet_update_self _ _ _ _ hbase
    · simp only [mergeSubmapIntoStore, hcond, if_true, hbase, hget]
      simp only [hasMap]
      rw [storeGet_remove_self]
      rfl
  · intro hkt hnm hnt
    refine ⟨by simp [workerLoadStep, hnt], ?_⟩
    simp only [hasMap]
    rw [storeGet_insert_ne _ _ _ _ hkt]
    simpa [hasMap] using hnm

/-- Witness for C9: bootstrap adoption, steady-state merge and
merged-map-free loading at concrete stores. -/
theorem merge_bootstrap_and_steady_state_witness :
    (storeGet (mergeSubmapIntoStore sampleMergeFn
        [(serverMapKey h0 "robotA" "p", sampleData)]
        (serverMapKey h0 "robotA" "p")) kMergedMapKey =
      some (setBaseframeKnown sampleData) ∧
     hasMap (mergeSubmapIntoStore sampleMergeFn
        [(serverMapKey h0 "robotA" "p", sampleData)]
        (serverMapKey h0 "robotA" "p")) (serverMapKey h0 "robotA" "p") =
      false) ∧
    (storeGet (mergeSubmapIntoStore sampleMergeFn
        [(kMergedMapKey, sampleBase), (serverMapKey h0 "robotA" "p", sampleData)]
        (serverMapKey h0 "robotA" "p")) kMergedMapKey =
      some (sampleMergeFn sampleBase sampleData) ∧
     hasMap (mergeSubmapIntoStore sampleMergeFn
        [(kMergedMapKey, sampleBase), (serverMapKey h0 "robotA" "p", sampleData)]
        (serverMapKey h0 "robotA" "p")) (serverMapKey h0 "robotA" "p") =
      false) :=
  ⟨(merge_bootstrap_and_steady_state sampleMergeFn sampleLoadFn
      [(serverMapKey h0 "robotA" "p", sampleData)]
      (serverMapKey h0 "robotA" "p") sampleData
      (mkSubmapProcess h0 "robotB" "p") (by decide) (by decide)).1 (by decide),
   (merge_bootstrap_and_steady_state sampleMergeFn sampleLoadFn
      [(kMergedMapKey, sampleBase), (serverMapKey h0 "robotA" "p", sampleData)]
      (serverMapKey h0 "robotA" "p") sampleData
      (mkSubmapProcess h0 "robotB" "p") (by decide) (by decide)).2.1
      sampleBase (by decide)⟩

/-! ## Lemmas about the merge-loop queue drain -/

theorem drainQueue_keys (shut : ℕ → Bool) (i : ℕ) (q : List SubmapProcess) :
    q.map SubmapProcess.map_key =
      (drainQueue shut i q).1.map SubmapProcess.map_key ++
      (drainQueue shut i q).2.map SubmapProcess.map_key := by
  induction q generalizing i with
  | nil => simp [drainQueue]
  | cons t rest ih =>
    by_cases h1 : shut i = true
    · simp [drainQueue, h1]
    · by_cases h2 : t.lockHeld = true
      · simp [drainQueue, h1, h2]
      · have h2f : t.lockHeld = false := by simpa using h2
        by_cases h3 : t.is_loaded = true
        · by_cases h4 : t.is_processed = true
          · have hkey : (SubmapProcess.markMerged t).map_key = t.map_key := rfl
            simp only [drainQueue, h1, Bool.false_eq_true, if_false, h2f,
              h3, h4, Bool.not_true, List.map_cons, hkey, List.cons_append,
              List.map]
            rw [ih (i + 1)]
          · have h4f : t.is_processed = false := by simpa using h4
            simp [drainQueue, h1, h2f, h3, h4f]
        · have h3f : t.is_loaded = false := by simpa using h3
          simp [drainQueue, h1, h2f, h3f]

theorem drainQueue_merged_flags (shut : ℕ → Bool) (i : ℕ)
    (q : List SubmapProcess) :
    ∀ t ∈ (drainQueue shut i q).1,
      t.is_loaded = true ∧ t.is_processed = true ∧ t.is_merged = true ∧
        t.lockHeld = false := by
  induction q generalizing i with
  | nil => simp [drainQueue]
  | cons t rest ih =>
    by_cases h1 : shut i = true
    · simp [drainQueue, h1]
    · by_cases h2 : t.lockHeld = true
      · simp [drainQueue, h1, h2]
      · have h2f : t.lockHeld = false := by simpa using h2
        by_cases h3 : t.is_loaded = true
        · by_cases h4 : t.is_processed = true
          · intro t2 ht2
            simp only [drainQueue, h1, Bool.false_eq_true, if_false, h2f,
              h3, h4, Bool.not_true, List.mem_cons] at ht2
            rcases ht2 with ht2 | ht2
            · subst ht2
              exact ⟨h3, h4, rfl, h2f⟩
            · exact ih (i + 1) t2 ht2
          · have h4f : t.is_processed = false := by simpa using h4
            simp [drainQueue, h1, h2f, h3, h4f]
        · have h3f : t.is_loaded = false := by simpa using h3
          simp [drainQueue, h1, h2f, h3f]

theorem drainQueue_stop (shut : ℕ → Bool) (i : ℕ) (q : List SubmapProcess) :
    ∀ t rest2, (drainQueue shut i q).2 = t :: rest2 →
      shut (i + (drainQueue shut i q).1.length) = true ∨ taskReady t = false := by
  induction q generalizing i with
  | nil => simp [drainQueue]
  | cons t0 rest ih =>
    intro t rest2 hrem
    by_cases h1 : shut i = true
    · left
      simp only [drainQueue, h1, if_true, List.length_nil, Nat.add_zero]
    · by_cases h2 : t0.lockHeld = true
      · right
        simp only [drainQueue, h1, Bool.false_eq_true, if_false, h2,
          if_true, List.cons.injEq] at hrem
        rw [← hrem.1]
        simp [taskReady, h2]
      · have h2f : t0.lockHeld = false := by simpa using h2
        by_cases h3 : t0.is_loaded = true
        · by_cases h4 : t0.is_processed = true
          · have hdrain2 : (drainQueue shut i (t0 :: rest)).2 =
                (drainQueue shut (i + 1) rest).2 := by
              simp [drainQueue, h1, h2f, h3, h4]
            have hdrain1 : (drainQueue shut i (t0 :: rest)).1.length =
                (drainQueue shut (i + 1) rest).1.length + 1 := by
              simp [drainQueue, h1, h2f, h3, h4]
            rw [hdrain2] at hrem
            rcases ih (i + 1) t rest2 hrem with hcase | hcase
            · left
              rw [hdrain1]
              have harith : i + ((drainQueue shut (i + 1) rest).1.length + 1) =
                  i + 1 + (drainQueue shut (i + 1) rest).1.length := by omega
              rw [harith]
              exact hcase
            · right
              exact hcase
          · have h4f : t0.is_processed = false := by simpa using h4
            right
            simp only [drainQueue, h1, Bool.false_eq_true, if_false, h2f, h3,
              h4f, Bool.not_true, Bool.not_false, if_true,
              List.cons.injEq] at hrem
            rw [← hrem.1]
            simp [taskReady, h4f]
        · have h3f : t0.is_loaded = false := by simpa using h3
          right
          simp only [drainQueue, h1, Bool.false_eq_true, if_false, h2f, h3f,
            Bool.not_false, if_true, List.cons.injEq] at hrem
          rw [← hrem.1]
          simp [taskReady, h3f]

/-! ## Lemmas about the worker job's command loop -/

theorem runSubmapCommands_processed_iff (shut : ℕ → Bool) (cmds : List String)
    (i : ℕ) :
    (runSubmapCommands shut i cmds).2 = true ↔
      ∀ j, j < cmds.length → shut (i + j) = false := by
  induction cmds generalizing i with
  | nil => simp [runSubmapCommands]
  | cons c rest ih =>
    by_cases h1 : shut i = true
    · simp only [runSubmapCommands, h1, if_true]
      constructor
      · intro hcon
        cases hcon
      · intro hall
        have := hall 0 (by simp)
        rw [Nat.add_zero] at this
        rw [h1] at this
        cases this
    · have h1f : shut i = false := by simpa using h1
      simp only [runSubmapCommands, h1, Bool.false_eq_true, if_false]
      rw [ih (i + 1)]
      constructor
      · intro hall j hj
        cases j with
        | zero => simpa using h1f
        | succ n =>
          have harith : i + (n + 1) = i + 1 + n := by omega
          rw [harith]
          exact hall n (by simpa using hj)
      · intro hall j hj
        have harith : i + 1 + j = i + (j + 1) := by omega
        rw [harith]
        exact hall (j + 1) (by simp only [List.length_cons]; omega)

theorem runSubmapCommands_shutdown_take (shut : ℕ → Bool) (cmds : List String)
    (i k : ℕ) (hk : k < cmds.length) (hshut : shut (i + k) = true)
    (hbefore : ∀ j, j < k → shut (i + j) = false) :
    (runSubmapCommands shut i cmds).1 = cmds.take (k + 1) ∧
    (runSubmapCommands shut i cmds).2 = false := by
  induction cmds generalizing i k with
  | nil => simp at hk
  | cons c rest ih =>
    cases k with
    | zero =>
      have h1 : shut i = true := by simpa using hshut
      simp [runSubmapCommands, h1]
    | succ n =>
      have h1f : shut i = false := by simpa using hbefore 0 (by omega)
      have h1 : ¬ shut i = true := by simp [h1f]
      have hshut2 : shut (i + 1 + n) = true := by
        have harith : i + 1 + n = i + (n + 1) := by omega
        rw [harith]
        exact hshut
      have hbefore2 : ∀ j, j < n → shut (i + 1 + j) = false := by
        intro j hj
        have harith : i + 1 + j = i + (j + 1) := by omega
        rw [harith]
        exact hbefore (j + 1) (by omega)
      have := ih (i + 1) n (by simpa using hk) hshut2 hbefore2
      simp only [runSubmapCommands, h1f, Bool.false_eq_true, if_false,
        List.take_succ_cons]
      exact ⟨by rw [this.1], this.2⟩

/-- Claim C8: the worker job sets `is_processed` exactly when every
shutdown check during its command loop read false; if shutdown is first
observed at the check after command `k`, the commands after `k` are
skipped and `is_processed` stays false; and the merge loop only ever
merges tasks whose `is_processed` flag is set. -/
theorem processed_set_only_without_shutdown (shut : ℕ → Bool)
    (cmds : List String) (i k : ℕ) :
    ((runSubmapCommands shut i cmds).2 = true ↔
      ∀ j, j < cmds.length → shut (i + j) = false) ∧
    (k < cmds.length → shut (i + k) = true →
      (∀ j, j < k → shut (i + j) = false) →
      (runSubmapCommands shut i cmds).1 = cmds.take (k + 1) ∧
      (runSubmapCommands shut i cmds).2 = false) ∧
    (∀ (shut2 : ℕ → Bool) (i2 : ℕ) (q : List SubmapProcess),
      ∀ t ∈ (drainQueue shut2 i2 q).1, t.is_processed = true) := by
  refine ⟨runSubmapCommands_processed_iff shut cmds i, ?_, ?_⟩
  · intro h1 h2 h3
    exact runSubmapCommands_shutdown_take shut cmds i k h1 h2 h3
  · intro shut2 i2 q t ht
    exact (drainQueue_merged_flags shut2 i2 q t ht).2.1

/-- Witness for C8: shutdown observed at the check after the second
command skips the third and leaves the processed flag false; with no
shutdown the loop completes and the flag is set. -/
theorem processed_set_only_without_shutdown_witness :
    (runSubmapCommands shutAtOne 0 ["a", "b", "c"]).1 =
      (["a", "b", "c"]).take 2 ∧
    (runSubmapCommands shutAtOne 0 ["a", "b", "c"]).2 = false ∧
    (runSubmapCommands shutNever 0 ["a", "b", "c"]).2 = true :=
  ⟨((processed_set_only_without_shutdown shutAtOne ["a", "b", "c"] 0 1).2.1
      (by decide) (by decide) (by decide)).1,
   ((processed_set_only_without_shutdown shutAtOne ["a", "b", "c"] 0 1).2.1
      (by decide) (by decide) (by decide)).2,
   (processed_set_only_without_shutdown shutNever ["a", "b", "c"] 0 0).1.mpr
      (by decide)⟩

/-! ## The state invariant of the trace model -/

theorem invariant_set_task (s : ServerState) (inv : queueInvariant s) (i : ℕ)
    (hi : i < s.queue.length) (b : SubmapProcess)
    (hkey : b.map_key = (s.queue.get ⟨i, hi⟩).map_key)
    (hflags : (b.is_processed = true → b.is_loaded = true) ∧
      b.is_merged = false) :
    queueInvariant ⟨s.queue.set i b, s.mergedTasks, s.arrivals⟩ := by
  obtain ⟨hq, hm, ha⟩ := inv
  refine ⟨?_, hm, ?_⟩
  · intro t ht
    rcases List.mem_or_eq_of_mem_set ht with h1 | h1
    · exact hq t h1
    · subst h1
      exact hflags
  · show s.arrivals = _ ++ (s.queue.set i b).map SubmapProcess.map_key
    rw [list_map_set_of_eq SubmapProcess.map_key s.queue i hi b
      (by simpa using hkey)]
    exact ha

theorem step_invariant (h : String → ℕ) (s s' : ServerState)
    (inv : queueInvariant s) (hstep : Step h s s') : queueInvariant s' := by
  obtain ⟨hq, hm, ha⟩ := inv
  cases hstep with
  | enqueue robot path hr hp =>
    refine ⟨?_, hm, ?_⟩
    · intro t ht
      rcases List.mem_append.mp ht with h1 | h1
      · exact hq t h1
      · have ht2 : t = mkSubmapProcess h robot path := by simpa using h1
        subst ht2
        simp [mkSubmapProcess]
    · show s.arrivals ++ _ = _
      rw [ha]
      simp [mkSubmapProcess, List.append_assoc]
  | workerAcquire i hi hl hld =>
    refine invariant_set_task s ⟨hq, hm, ha⟩ i hi _ rfl ?_
    have hmem := hq _ (List.get_mem s.queue i hi)
    exact ⟨by simpa [SubmapProcess.lock] using hmem.1,
      by simpa [SubmapProcess.lock] using hmem.2⟩
  | workerLoad i hi hl hld =>
    refine invariant_set_task s ⟨hq, hm, ha⟩ i hi _ rfl ?_
    have hmem := hq _ (List.get_mem s.queue i hi)
    exact ⟨fun _ => rfl,
      by simpa [SubmapProcess.markLoaded] using hmem.2⟩
  | workerProcess i hi hl hld hpr =>
    refine invariant_set_task s ⟨hq, hm, ha⟩ i hi _ rfl ?_
    have hmem := hq _ (List.get_mem s.queue i hi)
    exact ⟨fun _ => by simpa [SubmapProcess.markProcessed] using hld,
      by simpa [SubmapProcess.markProcessed] using hmem.2⟩
  | workerRelease i hi hl hld =>
    refine invariant_set_task s ⟨hq, hm, ha⟩ i hi _ rfl ?_
    have hmem := hq _ (List.get_mem s.queue i hi)
    exact ⟨by simpa [SubmapProcess.unlock] using hmem.1,
      by simpa [SubmapProcess.unlock] using hmem.2⟩
  | mergeHead t rest hq2 hl h1 h2 =>
    refine ⟨?_, ?_, ?_⟩
    · intro t2 ht2
      exact hq t2 (hq2 ▸ List.mem_cons_of_mem t ht2)
    · intro t2 ht2
      rcases List.mem_append.mp ht2 with hc | hc
      · exact hm t2 hc
      · have ht3 : t2 = t.markMerged := by simpa using hc
        subst ht3
        exact ⟨rfl, by simpa [SubmapProcess.markMerged] using h2,
          by simpa [SubmapProcess.markMerged] using h1⟩
    · show s.arrivals =
        (s.mergedTasks ++ [t.markMerged]).map SubmapProcess.map_key ++
          rest.map SubmapProcess.map_key
      rw [ha, hq2]
      simp [SubmapProcess.markMerged, List.append_assoc]

theorem reachable_invariant (h : String → ℕ) (s : ServerState)
    (hs : Reachable h s) : queueInvariant s := by
  induction hs with
  | init =>
    exact ⟨by simp [ServerState.init], by simp [ServerState.init],
      by simp [ServerState.init]⟩
  | step hrs hst ih => exact step_invariant _ _ _ ih hst

/-- A concrete reachable state with one freshly enqueued task. -/
theorem reachable_stateOne : Reachable h0 stateOne :=
  Reachable.step Reachable.init
    (Step.enqueue ServerState.init "robotA" "pathA" (by decide) (by decide))

/-! ## Claims about merge order and the task state machine -/

/-- Claim C1: the merge loop's queue drain scans only from the head and
merges a prefix of the queue in queue order (so merge/removal order equals
arrival order within the queue); every merged task was ready (lock
acquirable, loaded and processed); scanning stops at the first task that
is not ready unless the shutdown flag stopped the drain; and globally, on
every reachable state, the arrival order is exactly the merged tasks (in
merge order) followed by the still-queued tasks (in queue order). -/
theorem merge_order_matches_arrival_order (h : String → ℕ) (shut : ℕ → Bool)
    (q : List SubmapProcess) (i : ℕ) (s : ServerState) (hs : Reachable h s) :
    (q.map SubmapProcess.map_key =
      (drainQueue shut i q).1.map SubmapProcess.map_key ++
      (drainQueue shut i q).2.map SubmapProcess.map_key) ∧
    (∀ t ∈ (drainQueue shut i q).1,
      t.is_loaded = true ∧ t.is_processed = true ∧ t.is_merged = true ∧
        t.lockHeld = false) ∧
    (∀ t rest2, (drainQueue shut i q).2 = t :: rest2 →
      shut (i + (drainQueue shut i q).1.length) = true ∨
        taskReady t = false) ∧
    s.arrivals = s.mergedTasks.map SubmapProcess.map_key ++
      s.queue.map SubmapProcess.map_key :=
  ⟨drainQueue_keys shut i q, drainQueue_merged_flags shut i q,
   drainQueue_stop shut i q, (reachable_invariant h s hs).2.2⟩

/-- Witness for C1: a drain over a concrete queue whose head is ready and
whose second task is not, and the arrival bookkeeping of a concrete
reachable state. -/
theorem merge_order_matches_arrival_order_witness :
    ([sampleReadyTask, sampleTask].map SubmapProcess.map_key =
      (drainQueue shutNever 0 [sampleReadyTask, sampleTask]).1.map
        SubmapProcess.map_key ++
      (drainQueue shutNever 0 [sampleReadyTask, sampleTask]).2.map
        SubmapProcess.map_key) ∧
    stateOne.arrivals = stateOne.mergedTasks.map SubmapProcess.map_key ++
      stateOne.queue.map SubmapProcess.map_key :=
  ⟨(merge_order_matches_arrival_order h0 shutNever
      [sampleReadyTask, sampleTask] 0 stateOne reachable_stateOne).1,
   (merge_order_matches_arrival_order h0 shutNever
      [sampleReadyTask, sampleTask] 0 stateOne reachable_stateOne).2.2.2⟩

/-- Claim C2: on every reachable state, every queued task satisfies
`processed ⇒ loaded` and `merged ⇒ processed` (queued tasks are in fact
never marked merged, since merging and removal happen in one critical
section); every removed-by-merge task is merged, processed and loaded; a
step never resets a surviving task's flags (they grow monotonically, and
identity fields are preserved); and a task is removed from the queue if
and only if that step merged it (enqueueing and worker steps remove
nothing and merge nothing). -/
theorem submap_flags_monotone_and_removal (h : String → ℕ)
    (s s' : ServerState) (hs : Reachable h s) (hstep : Step h s s') :
    (∀ t ∈ s.queue,
      (t.is_processed = true → t.is_loaded = true) ∧
      (t.is_merged = true → t.is_processed = true) ∧ t.is_merged = false) ∧
    (∀ t ∈ s.mergedTasks,
      t.is_merged = true ∧ t.is_processed = true ∧ t.is_loaded = true) ∧
    (∀ t2 ∈ s'.queue,
      (∃ t1 ∈ s.queue,
        t1.robot_name = t2.robot_name ∧ t1.path = t2.path ∧
        t1.map_key = t2.map_key ∧
        (t1.is_loaded = true → t2.is_loaded = true) ∧
        (t1.is_processed = true → t2.is_processed = true) ∧
        (t1.is_merged = true → t2.is_merged = true)) ∨
      (t2.is_loaded = false ∧ t2.is_processed = false ∧
        t2.is_merged = false)) ∧
    ((∃ t rest, s.queue = t :: rest ∧ s'.queue = rest ∧
        s'.mergedTasks = s.mergedTasks ++ [t.markMerged] ∧
        t.is_loaded = true ∧ t.is_processed = true) ∨
     (s'.mergedTasks = s.mergedTasks ∧
        (s'.queue.map SubmapProcess.map_key =
          s.queue.map SubmapProcess.map_key ∨
         ∃ t, s'.queue = s.queue ++ [t]))) := by
  obtain ⟨hq, hm, ha⟩ := reachable_invariant h s hs
  refine ⟨?_, hm, ?_, ?_⟩
  · intro t ht
    refine ⟨(hq t ht).1, ?_, (hq t ht).2⟩
    intro hmg
    rw [(hq t ht).2] at hmg
    cases hmg
  · intro t2 ht2
    cases hstep with
    | enqueue robot path hr hp =>
      rcases List.mem_append.mp ht2 with h1 | h1
      · exact Or.inl ⟨t2, h1, rfl, rfl, rfl, fun x => x, fun x => x,
          fun x => x⟩
      · have ht3 : t2 = mkSubmapProcess h robot path := by simpa using h1
        subst ht3
        exact Or.inr ⟨rfl, rfl, rfl⟩
    | workerAcquire i hi hl hld =>
      rcases List.mem_or_eq_of_mem_set ht2 with h1 | h1
      · exact Or.inl ⟨t2, h1, rfl, rfl, rfl, fun x => x, fun x => x,
          fun x => x⟩
      · subst h1
        exact Or.inl ⟨s.queue.get ⟨i, hi⟩, List.get_mem s.queue i hi,
          rfl, rfl, rfl, fun x => x, fun x => x, fun x => x⟩
    | workerLoad i hi hl hld =>
      rcases List.mem_or_eq_of_mem_set ht2 with h1 | h1
      · exact Or.inl ⟨t2, h1, rfl, rfl, rfl, fun x => x, fun x => x,
          fun x => x⟩
      · subst h1
        exact Or.inl ⟨s.queue.get ⟨i, hi⟩, List.get_mem s.queue i hi,
          rfl, rfl, rfl, fun _ => rfl, fun x => x, fun x => x⟩
    | workerProcess i hi hl hld hpr =>
      rcases List.mem_or_eq_of_mem_set ht2 with h1 | h1
      · exact Or.inl ⟨t2, h1, rfl, rfl, rfl, fun x => x, fun x => x,
          fun x => x⟩
      · subst h1
        exact Or.inl ⟨s.queue.get ⟨i, hi⟩, List.get_mem s.queue i hi,
          rfl, rfl, rfl, fun x => x, fun _ => rfl, fun x => x⟩
    | workerRelease i hi hl hld =>
      rcases List.mem_or_eq_of_mem_set ht2 with h1 | h1
      · exact Or.inl ⟨t2, h1, rfl, rfl, rfl, fun x => x, fun x => x,
          fun x => x⟩
      · subst h1
        exact Or.inl ⟨s.queue.get ⟨i, hi⟩, List.get_mem s.queue i hi,
          rfl, rfl, rfl, fun x => x, fun x => x, fun x => x⟩
    | mergeHead t rest hq2 hl h1 h2 =>
      exact Or.inl ⟨t2, hq2 ▸ List.mem_cons_of_mem t ht2, rfl, rfl, rfl,
        fun x => x, fun x => x, fun x => x⟩
  · cases hstep with
    | enqueue robot path hr hp =>
      exact Or.inr ⟨rfl, Or.inr ⟨mkSubmapProcess h robot path, rfl⟩⟩
    | workerAcquire i hi hl hld =>
      exact Or.inr ⟨rfl, Or.inl (list_map_set_of_eq _ s.queue i hi _
        (by simp [SubmapProcess.lock]))⟩
    | workerLoad i hi hl hld =>
      exact Or.inr ⟨rfl, Or.inl (list_map_set_of_eq _ s.queue i hi _
        (by simp [SubmapProcess.markLoaded]))⟩
    | workerProcess i hi hl hld hpr =>
      exact Or.inr ⟨rfl, Or.inl (list_map_set_of_eq _ s.queue i hi _
        (by simp [SubmapProcess.markProcessed]))⟩
    | workerRelease i hi hl hld =>
      exact Or.inr ⟨rfl, Or.inl (list_map_set_of_eq _ s.queue i hi _
        (by simp [SubmapProcess.unlock]))⟩
    | mergeHead t rest hq2 hl h1 h2 =>
      exact Or.inl ⟨t, rest, hq2, rfl, rfl, h1, h2⟩

/-- Witness for C2: the flag invariant of the freshly enqueued task in a
concrete reachable state, across a concrete worker lock-acquisition step. -/
theorem submap_flags_monotone_and_removal_witness :
    (sampleTask.is_processed = true → sampleTask.is_loaded = true) ∧
    (sampleTask.is_merged = true → sampleTask.is_processed = true) ∧
    sampleTask.is_merged = false :=
  (submap_flags_monotone_and_removal h0 stateOne _ reachable_stateOne
    (Step.workerAcquire stateOne 0 (by decide) (by rfl) (by rfl))).1
    sampleTask (by simp [stateOne])

/-- Claim C5 counterpart (amended): the status thread reports the
internal-inconsistency error exactly for a task observed merged while its
lock is NOT held (acquirable); a merged task whose lock is held presents
as the ordinary `merged` state; and the error state is unreachable — on
every reachable state no queued task can present as inconsistent, because
a task is marked merged and removed from the queue in the same critical
section. -/
theorem status_inconsistent_iff_merged_and_unlocked (m p l k : Bool)
    (h : String → ℕ) (s : ServerState) (hs : Reachable h s) :
    (statusLabel m p l k = SubmapStatusLabel.inconsistent ↔
      (m = true ∧ k = false)) ∧
    (∀ t ∈ s.queue,
      statusLabel t.is_merged t.is_processed t.is_loaded t.lockHeld ≠
        SubmapStatusLabel.inconsistent) := by
  constructor
  · revert m p l k
    decide
  · intro t ht
    have hinv := (reachable_invariant h s hs).1 t ht
    obtain ⟨rn, pa, mk, mh, ld, pr, mg, lk⟩ := t
    have hmg : mg = false := by simpa using hinv.2
    subst hmg
    cases pr <;> cases ld <;> cases lk <;> simp [statusLabel]

/-- Witness for the amended C5 at concrete flag values and a concrete
reachable state. -/
theorem status_inconsistent_iff_merged_and_unlocked_witness :
    (statusLabel true true true false = SubmapStatusLabel.inconsistent ↔
      (true = true ∧ false = false)) ∧
    statusLabel sampleTask.is_merged sampleTask.is_processed
      sampleTask.is_loaded sampleTask.lockHeld ≠
      SubmapStatusLabel.inconsistent :=
  ⟨(status_inconsistent_iff_merged_and_unlocked true true true false h0
      stateOne reachable_stateOne).1,
   (status_inconsistent_iff_merged_and_unlocked true true true false h0
      stateOne reachable_stateOne).2 sampleTask (by simp [stateOne])⟩

end MaplabServer
